import Mathlib

/-!
Shallow embedding of `falkon/ooc_ops/ooc_potrf.py`: the memory-aware GPU Cholesky
orchestrator.  Pure policy code (device budgets, strategy selection, block planning,
layout normalization) is translated directly; the two external factorization kernels
are abstract function parameters; in-place mutation of torch tensors is made explicit
through a heap of buffers addressed by natural numbers.
-/

namespace Falkon

/-- Raw 2-D storage of a tensor, read in its base orientation. -/
abbrev Buffer : Type := ℕ → ℕ → ℚ

/-- The heap maps buffer addresses to buffers. -/
abbrev Heap : Type := ℕ → Buffer

/-- Model of a square torch tensor handle: an address into the heap plus the metadata
the policy layer inspects (`A.shape[0] = A.shape[1] = n`, element size `dts` in bytes,
`is_f_contig`, CUDA residency and device index).  `trans` records that this handle
views its storage transposed, as produced by `torch.Tensor.T`. -/
structure TensorH where
  addr : ℕ
  n : ℕ
  dts : ℕ
  fContig : Bool
  trans : Bool
  isCuda : Bool
  deviceIndex : ℤ
deriving DecidableEq

/-- Transposed view `A.T` of the same storage (`ooc_potrf.py` lines 205, 238).
For the square contiguous buffers handled here, transposition flips F-contiguity. -/
def TensorH.T (A : TensorH) : TensorH :=
  { A with trans := !A.trans, fContig := !A.fContig }

/-- Read the logical matrix a handle denotes. -/
def readT (h : Heap) (A : TensorH) : Buffer :=
  fun i j => if A.trans then h A.addr j i else h A.addr i j

/-- Overwrite the logical matrix a handle denotes (in-place mutation through a view). -/
def writeT (h : Heap) (A : TensorH) (M : Buffer) : Heap :=
  fun a => if a = A.addr then (fun i j => if A.trans then M j i else M i j) else h a

/-- Device descriptor (`falkon.utils.devices.DeviceInfo`): an id, the raw free memory
reported by the driver and the per-call derived usable memory `actual_free_mem`. -/
structure DeviceInfo where
  Id : ℤ
  free_memory : ℚ
  actual_free_mem : ℚ
deriving DecidableEq

/-- The options `gpu_cholesky` consumes (`falkon.options`). -/
structure FalkonOptions where
  chol_force_ooc : Bool
  chol_force_in_core : Bool
  chol_par_blk_multiplier : ℕ
  max_gpu_mem : ℚ
  debug : Bool
deriving DecidableEq

/-- The error outcomes of `gpu_cholesky` and its helpers.  `cudaOOC b` is the
`ValueError` of lines 217-221; `b` records whether the message carries the extra
sentence suggesting to unset `chol_force_ooc`. -/
inductive Err where
  | deviceNotFound
  | emptyInventory
  | forceInCore
  | upperNotSupported
  | cudaOOC (mentionsForceFlag : Bool)
  | oocInfeasible
deriving DecidableEq

/-- Python's binary `min`: the first argument when the two are tied. -/
def ratMin (a b : ℚ) : ℚ := if a ≤ b then a else b

/-- Lines 186-188: keep the devices with id `>= 0` and derive each one's usable
memory `actual_free_mem = min((free_memory - 300MiB) * 0.95, max_gpu_mem * 0.95)`. -/
def get_gpu_info (opt : FalkonOptions) (inventory : List DeviceInfo) : List DeviceInfo :=
  (inventory.filter (fun d => decide (0 ≤ d.Id))).map (fun g =>
    { g with
      actual_free_mem := ratMin ((g.free_memory - 300 * 2 ^ 20) * (95 / 100)) (opt.max_gpu_mem * (95 / 100)) })

/-- Lines 132-144: in-core feasibility test.  The needed RAM is a fixed `100 * 8`
bytes for a device-resident matrix, and the full matrix footprint
`shape[0] * shape[1] * sizeof_dtype` for a host matrix. -/
def can_do_ic (A : TensorH) (device : DeviceInfo) : Bool :=
  let avail_ram := device.actual_free_mem * (85 / 100)
  let needed_ram : ℚ := if A.isCuda then 100 * 8 else ((A.n * A.n * A.dts : ℕ) : ℚ)
  decide (needed_ram ≤ avail_ram)

/-- Python's `max(gpu_info, key=lambda g: g.actual_free_mem)`: the first element
attaining the maximum; `none` on an empty list (where Python raises). -/
def argmaxFreeMem : List DeviceInfo → Option DeviceInfo
  | [] => none
  | g :: gs =>
    some (gs.foldl (fun best x => if best.actual_free_mem < x.actual_free_mem then x else best) g)

/-- Lines 190-197: the device eligible for in-core work.  A CUDA matrix must find its
own device in the inventory; a host matrix picks the device with most usable memory. -/
def selectDevice (A : TensorH) (gpu_info : List DeviceInfo) : Except Err DeviceInfo :=
  if A.isCuda then
    match gpu_info.find? (fun d => d.Id == A.deviceIndex) with
    | some d => .ok d
    | none => .error .deviceNotFound
  else
    match argmaxFreeMem gpu_info with
    | some d => .ok d
    | none => .error .emptyInventory

/-- Lines 190-198: device choice together with the in-core decision
`ic = can_do_ic(A, device) and not opt.chol_force_ooc`. -/
def selectStrategy (A : TensorH) (opt : FalkonOptions) (gpu_info : List DeviceInfo) :
    Except Err (DeviceInfo × Bool) :=
  match selectDevice A gpu_info with
  | .error e => .error e
  | .ok device => .ok (device, can_do_ic A device && !opt.chol_force_ooc)

/-- Lines 91-92: the out-of-core planner's maximum block size
`floor((sqrt(4*N^2 + 4*avail) - 2*N) / 2)`, over exact integer arithmetic. -/
def max_block_size (N availElems : ℕ) : ℕ :=
  (Nat.sqrt (4 * N ^ 2 + 4 * availElems) - 2 * N) / 2

/-- Modelled from the spec: `calc_block_sizes` lives in `falkon/ooc_ops/ooc_utils.py`,
which is not among the sources.  Per the spec's Block Planner contract, `[0, n)` is
partitioned into contiguous blocks of the derived block size in order, the last block
possibly shorter (`n mod block_size` when nonzero, else `block_size`); the multiplier's
tuning effect on the derived size is not specified further, so the derived size is
taken to be the maximum safe block size. -/
def calc_block_sizes (max_bs num_devices N multiplier : ℕ) : List ℕ :=
  List.replicate (N / max_bs) max_bs ++ (if N % max_bs = 0 then [] else [N % max_bs])

/-- One entry of the block allocation built at lines 99-107. -/
structure Block where
  start : ℕ
  end_ : ℕ
  size : ℕ
  device_id : ℕ
  id : ℕ
deriving DecidableEq

/-- Lines 99-107: the loop turning the planned sizes into the block allocation,
carrying the running offset `cur_n` and the running index `i`. -/
def buildAllocs (num_gpus : ℕ) : ℕ → ℕ → List ℕ → List Block
  | _, _, [] => []
  | i, cur_n, bs :: rest =>
    { start := cur_n, end_ := cur_n + bs, size := bs, device_id := i % num_gpus, id := i } ::
      buildAllocs num_gpus (i + 1) (cur_n + bs) rest

/-- Python's `min(...)` over the usable-memory figures; `none` on an empty list. -/
def minFreeMem : List DeviceInfo → Option ℚ
  | [] => none
  | g :: gs => some (gs.foldl (fun m x => ratMin m x.actual_free_mem) g.actual_free_mem)

/-- Which external kernel a call dispatched, with the arguments it received. -/
inductive KernelUsed where
  | ic (upper : Bool) (device : ℤ)
  | ooc (devices : List ℕ) (blocks : List Block)
deriving DecidableEq

/-- Result of `_parallel_potrf_runner`: the mutated heap plus the block allocation and
device list handed to the `parallel_potrf` kernel. -/
structure RunnerOut where
  heap : Heap
  blocks : List Block
  devices : List ℕ

/-- Lines 80-120: `_parallel_potrf_runner`.  The available element count is the
minimum usable memory across devices divided by the element size; the run fails when
the maximum block size floors below 1.  The multi-device kernel `parallel_potrf` is
the abstract parameter `oocK`, mutating `A` in place. -/
def parallel_potrf_runner (oocK : List ℕ → List Block → Buffer → Buffer)
    (h : Heap) (A : TensorH) (opt : FalkonOptions) (gpu_info : List DeviceInfo) :
    Except Err RunnerOut :=
  let num_gpus := gpu_info.length
  match minFreeMem gpu_info with
  | none => .error .emptyInventory
  | some mf =>
    let availElems : ℕ := (Int.floor (mf / (A.dts : ℚ))).toNat
    let mbs := max_block_size A.n availElems
    if mbs < 1 then .error .oocInfeasible
    else
      let bss := calc_block_sizes mbs num_gpus A.n opt.chol_par_blk_multiplier
      let blocks := buildAllocs num_gpus 0 0 bss
      let devs := List.range num_gpus
      .ok ⟨writeT h A (oocK devs blocks (readT h A)), blocks, devs⟩

/-- Modelled from the spec: `zero_triang` lives in `falkon.la_helpers`, which is not
among the sources.  Per the spec's Result Finalizer contract it zeroes the requested
triangle, leaving the diagonal untouched (the cleaned matrix's unused triangle is zero
strictly off the diagonal). -/
def zero_triang (M : Buffer) (upper : Bool) : Buffer :=
  fun i j => if (upper && decide (i < j)) || (!upper && decide (j < i)) then 0 else M i j

/-- Lines 204-206: the triangle flag after layout normalization. -/
def normUpper (A : TensorH) (upper : Bool) : Bool :=
  if A.fContig then upper else !upper

/-- Line 180: `copy_same_stride` allocates a fresh pinned buffer holding the same
contents; with `overwrite` the caller's buffer is used directly. -/
def copyHeap (h : Heap) (A : TensorH) (fresh : ℕ) (overwrite : Bool) : Heap :=
  if overwrite then h else fun a => if a = fresh then h A.addr else h a

/-- Lines 177-180: the working tensor — the caller's tensor, or the fresh copy. -/
def workTensor (A : TensorH) (fresh : ℕ) (overwrite : Bool) : TensorH :=
  if overwrite then A else { A with addr := fresh }

/-- The full observable outcome of a `gpu_cholesky` call: the final heap, the returned
handle or the error, and the kernel dispatched (if any). -/
structure CholOutcome where
  heap : Heap
  res : Except Err TensorH
  kernel : Option KernelUsed

/-- Lines 233-239: clean the other triangle of the working matrix, then undo the
transposition. -/
def finishChol (h2 : Heap) (A2 : TensorH) (upper2 clean transposed : Bool)
    (k : Option KernelUsed) : CholOutcome :=
  let h3 := if clean then writeT h2 A2 (zero_triang (readT h2 A2) (!upper2)) else h2
  ⟨h3, .ok (if transposed then A2.T else A2), k⟩

/-- Lines 202-205: the working tensor after layout normalization (`A = A.T` when the
input is not F-contiguous). -/
def normTensor (A1 : TensorH) : TensorH :=
  if A1.fContig then A1 else A1.T

/-- Lines 202-231: layout normalization, the two pre-dispatch feasibility errors, and
the dispatch to the in-core kernel `icK` or the out-of-core runner. -/
def dispatchAndFinish (icK : Buffer → Bool → Buffer)
    (oocK : List ℕ → List Block → Buffer → Buffer)
    (h1 : Heap) (A1 : TensorH) (upper clean : Bool) (opt : FalkonOptions)
    (gpu_info : List DeviceInfo) (device : DeviceInfo) (ic : Bool) : CholOutcome :=
  if normUpper A1 upper && !ic then ⟨h1, .error .upperNotSupported, none⟩
  else if !ic && (normTensor A1).isCuda then ⟨h1, .error (.cudaOOC opt.chol_force_ooc), none⟩
  else if ic then
    finishChol (writeT h1 (normTensor A1) (icK (readT h1 (normTensor A1)) (normUpper A1 upper)))
      (normTensor A1) (normUpper A1 upper) clean (!A1.fContig)
      (some (.ic (normUpper A1 upper) device.Id))
  else
    match parallel_potrf_runner oocK h1 (normTensor A1) opt gpu_info with
    | .error e => ⟨h1, .error e, none⟩
    | .ok r =>
      finishChol r.heap (normTensor A1) (normUpper A1 upper) clean (!A1.fContig)
        (some (.ooc r.devices r.blocks))

/-- Lines 147-240: `gpu_cholesky`.  The in-core kernel `_ic_cholesky` is the abstract
parameter `icK` (a function of the logical matrix and the triangle flag, applied in
place); `fresh` is the address `copy_same_stride` allocates; `inventory` is the
device inventory `get_device_info` reports for this call. -/
def gpu_cholesky (icK : Buffer → Bool → Buffer)
    (oocK : List ℕ → List Block → Buffer → Buffer)
    (h : Heap) (fresh : ℕ) (A : TensorH)
    (upper clean overwrite : Bool) (opt : FalkonOptions)
    (inventory : List DeviceInfo) : CholOutcome :=
  match selectStrategy (workTensor A fresh overwrite) opt (get_gpu_info opt inventory) with
  | .error e => ⟨copyHeap h A fresh overwrite, .error e, none⟩
  | .ok (device, ic) =>
    if opt.chol_force_in_core && !ic then
      ⟨copyHeap h A fresh overwrite, .error .forceInCore, none⟩
    else
      dispatchAndFinish icK oocK (copyHeap h A fresh overwrite) (workTensor A fresh overwrite)
        upper clean opt (get_gpu_info opt inventory) device ic

/-! ### The planner's maximum block size (claim C1) -/

/-- The code's nested formula collapses to `sqrt(n^2 + A) - n`: over the reals,
`(sqrt(4n^2 + 4A) - 2n) / 2 = sqrt(n^2 + A) - n`, and flooring commutes. -/
theorem max_block_size_eq (N A : ℕ) :
    max_block_size N A = Nat.sqrt (N ^ 2 + A) - N := by
  unfold max_block_size
  have h4 : 4 * N ^ 2 + 4 * A = 4 * (N ^ 2 + A) := by ring
  set s := Nat.sqrt (N ^ 2 + A) with hs
  have hs1 : s * s ≤ N ^ 2 + A := Nat.sqrt_le _
  have hs2 : N ^ 2 + A < (s + 1) * (s + 1) := Nat.lt_succ_sqrt _
  have hsN : N ≤ s := by
    rw [hs]
    exact Nat.le_sqrt.mpr (by nlinarith)
  have h2s : 2 * s ≤ Nat.sqrt (4 * N ^ 2 + 4 * A) := by
    rw [h4]
    exact Nat.le_sqrt.mpr (by nlinarith)
  have ht : Nat.sqrt (4 * N ^ 2 + 4 * A) < 2 * s + 2 := by
    rw [h4]
    exact Nat.sqrt_lt.mpr (by nlinarith)
  omega

/-- C1 (amended): with exact division the working-set bound solved by the planner is
`b^2 + 2nb <= A` (i.e. `b^2 * (2 * (n/b) + 1) <= A` with real division `n/b`), and the
computed block size is the largest integer satisfying it. -/
theorem C1_max_block_size_maximal (n A : ℕ) (hn : 1 ≤ n) :
    (max_block_size n A) ^ 2 + 2 * n * (max_block_size n A) ≤ A ∧
      A < (max_block_size n A + 1) ^ 2 + 2 * n * (max_block_size n A + 1) := by
  rw [max_block_size_eq]
  set s := Nat.sqrt (n ^ 2 + A) with hs
  have hs1 : s * s ≤ n ^ 2 + A := Nat.sqrt_le _
  have hs2 : n ^ 2 + A < (s + 1) * (s + 1) := Nat.lt_succ_sqrt _
  have hsN : n ≤ s := by
    rw [hs]
    exact Nat.le_sqrt.mpr (by nlinarith)
  obtain ⟨b, hb⟩ : ∃ b, s = n + b := ⟨s - n, by omega⟩
  rw [hb] at hs1 hs2 ⊢
  have hcan : n + b - n = b := by omega
  rw [hcan]
  constructor
  · nlinarith
  · nlinarith

/-- C1 witness: at `n = 3`, `A = 17` the computed block size is maximal for the
exact-division working-set bound. -/
theorem C1_witness :
    1 ≤ 3 ∧
      ((max_block_size 3 17) ^ 2 + 2 * 3 * (max_block_size 3 17) ≤ 17 ∧
        17 < (max_block_size 3 17 + 1) ^ 2 + 2 * 3 * (max_block_size 3 17 + 1)) :=
  ⟨by decide, C1_max_block_size_maximal 3 17 (by decide)⟩

/-- C1 counterexample: at `n = 3`, `A = 17` the planner computes `b = 2`, but the
claimed ceiling-form working-set inequality `b^2 * (2 * ceil(n/b) + 1) <= A` fails
(`4 * 5 = 20 > 17`), so the claim as stated (that inequality plus its maximality) is
false. -/
theorem C1_counterexample :
    ¬ ((max_block_size 3 17) ^ 2 * (2 * ((3 + max_block_size 3 17 - 1) / max_block_size 3 17) + 1) ≤ 17 ∧
        ¬ ((max_block_size 3 17 + 1) ^ 2 *
            (2 * ((3 + (max_block_size 3 17 + 1) - 1) / (max_block_size 3 17 + 1)) + 1) ≤ 17)) := by
  have hsqrt : Nat.sqrt 26 = 5 := (Nat.eq_sqrt.mpr (by norm_num)).symm
  have hb : max_block_size 3 17 = 2 := by
    rw [max_block_size_eq]
    norm_num [hsqrt]
  rw [hb]
  decide

/-! ### The block allocation (claim C6) -/

/-- Default block, used with `List.getD`. -/
def dBlock : Block := ⟨0, 0, 0, 0, 0⟩

theorem buildAllocs_length (d : ℕ) (l : List ℕ) :
    ∀ i cur, (buildAllocs d i cur l).length = l.length := by
  induction l with
  | nil => intro i cur; rfl
  | cons b t ih => intro i cur; simp [buildAllocs, ih]

/-- Closed form of the allocation loop: the `k`-th block starts at the running offset
plus the sum of the previous sizes. -/
theorem buildAllocs_getD (d : ℕ) (l : List ℕ) :
    ∀ i cur k, k < l.length →
      (buildAllocs d i cur l).getD k dBlock =
        { start := cur + (l.take k).sum, end_ := cur + (l.take (k + 1)).sum,
          size := l.getD k 0, device_id := (i + k) % d, id := i + k } := by
  induction l with
  | nil => intro i cur k hk; simp at hk
  | cons b t ih =>
    intro i cur k hk
    cases k with
    | zero => simp [buildAllocs]
    | succ k =>
      have hk' : k < t.length := by simpa using hk
      simp only [buildAllocs, List.getD_cons_succ]
      rw [ih (i + 1) (cur + b) k hk']
      have h1 : i + 1 + k = i + (k + 1) := by omega
      simp [Block.mk.injEq, List.take_succ_cons, List.sum_cons, h1, Nat.add_assoc]

theorem calc_block_sizes_sum (m d n mult : ℕ) : (calc_block_sizes m d n mult).sum = n := by
  unfold calc_block_sizes
  by_cases h : n % m = 0
  · simp [h, List.sum_replicate, smul_eq_mul]
    exact Nat.div_mul_cancel (Nat.dvd_of_mod_eq_zero h)
  · simp [h, List.sum_replicate, smul_eq_mul]
    rw [Nat.mul_comm]
    exact Nat.div_add_mod n m

theorem calc_block_sizes_pos (m d n mult : ℕ) (hm : 1 ≤ m) :
    ∀ x ∈ calc_block_sizes m d n mult, 0 < x := by
  intro x hx
  unfold calc_block_sizes at hx
  rcases List.mem_append.mp hx with h | h
  · rw [List.eq_of_mem_replicate h]; omega
  · by_cases hz : n % m = 0
    · simp [hz] at h
    · simp [hz] at h
      rw [h]
      exact Nat.pos_of_ne_zero hz

theorem calc_block_sizes_ne_nil (m d n mult : ℕ) (hn : 1 ≤ n) :
    calc_block_sizes m d n mult ≠ [] := by
  intro hnil
  have hsum := calc_block_sizes_sum m d n mult
  rw [hnil] at hsum
  simp at hsum
  omega

/-- The allocation the out-of-core runner builds (lines 98-107): the planned sizes
folded into blocks, starting at offset 0 and block id 0. -/
def runnerAllocs (mbs d n mult : ℕ) : List Block :=
  buildAllocs d 0 0 (calc_block_sizes mbs d n mult)

/-- C6: the allocation the out-of-core runner builds from the planned sizes lists the
blocks in diagonal order — the `k`-th block has id `k` and device id `k mod d`, its end
is its start plus its size, the first block starts at 0, consecutive blocks are
contiguous with positive sizes (hence non-overlapping), and the last block ends at `n`,
so the starts/ends partition `[0, n)` exactly. -/
theorem C6_block_allocation (mbs d n mult : ℕ) (hmbs : 1 ≤ mbs) (hd : 1 ≤ d) (hn : 1 ≤ n) :
    runnerAllocs mbs d n mult ≠ [] ∧
      ∀ k, k < (runnerAllocs mbs d n mult).length →
        ((runnerAllocs mbs d n mult).getD k dBlock).id = k ∧
          ((runnerAllocs mbs d n mult).getD k dBlock).device_id = k % d ∧
          ((runnerAllocs mbs d n mult).getD k dBlock).end_ =
              ((runnerAllocs mbs d n mult).getD k dBlock).start +
                ((runnerAllocs mbs d n mult).getD k dBlock).size ∧
          0 < ((runnerAllocs mbs d n mult).getD k dBlock).size ∧
          (k = 0 → ((runnerAllocs mbs d n mult).getD k dBlock).start = 0) ∧
          (k + 1 = (runnerAllocs mbs d n mult).length →
            ((runnerAllocs mbs d n mult).getD k dBlock).end_ = n) ∧
          (k + 1 < (runnerAllocs mbs d n mult).length →
            ((runnerAllocs mbs d n mult).getD (k + 1) dBlock).start =
              ((runnerAllocs mbs d n mult).getD k dBlock).end_) := by
  unfold runnerAllocs
  have hlen : (buildAllocs d 0 0 (calc_block_sizes mbs d n mult)).length =
      (calc_block_sizes mbs d n mult).length :=
    buildAllocs_length d (calc_block_sizes mbs d n mult) 0 0
  constructor
  · intro hnil
    apply calc_block_sizes_ne_nil mbs d n mult hn
    rw [← List.length_eq_zero]
    have h0 : (buildAllocs d 0 0 (calc_block_sizes mbs d n mult)).length = 0 := by
      rw [hnil]; rfl
    omega
  · intro k hk
    have hk' : k < (calc_block_sizes mbs d n mult).length := by omega
    have hget := buildAllocs_getD d (calc_block_sizes mbs d n mult) 0 0 k hk'
    have hsize : (calc_block_sizes mbs d n mult).getD k 0 ∈ calc_block_sizes mbs d n mult := by
      rw [List.getD_eq_getElem _ _ hk']
      exact List.getElem_mem _
    refine ⟨?_, ?_, ?_, ?_, ?_, ?_, ?_⟩
    · rw [hget]
      simp
    · rw [hget]
      simp
    · rw [hget]
      simp only [Nat.zero_add]
      rw [List.sum_take_succ _ _ hk', List.getD_eq_getElem _ _ hk']
    · rw [hget]
      exact calc_block_sizes_pos mbs d n mult hmbs _ hsize
    · intro hk0
      rw [hget, hk0]
      simp
    · intro hklast
      rw [hget]
      have htake : (calc_block_sizes mbs d n mult).take (k + 1) = calc_block_sizes mbs d n mult :=
        List.take_of_length_le (by omega)
      simp only [htake, calc_block_sizes_sum, Nat.zero_add]
    · intro hknext
      have hk2 : k + 1 < (calc_block_sizes mbs d n mult).length := by omega
      have hget2 := buildAllocs_getD d (calc_block_sizes mbs d n mult) 0 0 (k + 1) hk2
      rw [hget, hget2]

/-- C6 witness: a concrete instance (`mbs = 2`, `d = 2`, `n = 5`) of the allocation
invariants. -/
theorem C6_witness :
    1 ≤ 2 ∧ 1 ≤ 5 ∧
      (runnerAllocs 2 2 5 1 ≠ [] ∧
        ∀ k, k < (runnerAllocs 2 2 5 1).length →
          ((runnerAllocs 2 2 5 1).getD k dBlock).id = k ∧
            ((runnerAllocs 2 2 5 1).getD k dBlock).device_id = k % 2 ∧
            ((runnerAllocs 2 2 5 1).getD k dBlock).end_ =
                ((runnerAllocs 2 2 5 1).getD k dBlock).start +
                  ((runnerAllocs 2 2 5 1).getD k dBlock).size ∧
            0 < ((runnerAllocs 2 2 5 1).getD k dBlock).size ∧
            (k = 0 → ((runnerAllocs 2 2 5 1).getD k dBlock).start = 0) ∧
            (k + 1 = (runnerAllocs 2 2 5 1).length →
              ((runnerAllocs 2 2 5 1).getD k dBlock).end_ = 5) ∧
            (k + 1 < (runnerAllocs 2 2 5 1).length →
              ((runnerAllocs 2 2 5 1).getD (k + 1) dBlock).start =
                ((runnerAllocs 2 2 5 1).getD k dBlock).end_)) :=
  ⟨by decide, by decide, C6_block_allocation 2 2 5 1 (by decide) (by decide) (by decide)⟩

/-! ### Memory budget and strategy selection (claims C8, C10, C2) -/

theorem ratMin_le_left (a b : ℚ) : ratMin a b ≤ a := by
  by_cases h : a ≤ b
  · simp [ratMin, h]
  · simp [ratMin, h]
    linarith [lt_of_not_le h]

/-- C8: every device budget derived by `gpu_cholesky` from a raw inventory satisfies
`actual_free_mem <= free_memory` whenever the raw free memory is non-negative; the
budget is a pure function of the call's own inventory snapshot. -/
theorem C8_usable_le_free (opt : FalkonOptions) (inv : List DeviceInfo) (g : DeviceInfo)
    (hg : g ∈ get_gpu_info opt inv) (hfree : 0 ≤ g.free_memory) :
    g.actual_free_mem ≤ g.free_memory := by
  unfold get_gpu_info at hg
  obtain ⟨g0, hg0, rfl⟩ := List.mem_map.mp hg
  have h1 := ratMin_le_left ((g0.free_memory - 300 * 2 ^ 20) * (95 / 100))
    (opt.max_gpu_mem * (95 / 100))
  have h2 : (0 : ℚ) ≤ g0.free_memory := hfree
  show ratMin ((g0.free_memory - 300 * 2 ^ 20) * (95 / 100)) (opt.max_gpu_mem * (95 / 100)) ≤
    g0.free_memory
  nlinarith

/-- A one-device inventory used by several witnesses: 400 MiB free. -/
def invW : List DeviceInfo := [⟨0, 400 * 2 ^ 20, 0⟩]

/-- Options with neither force flag set and a 1 GiB per-device cap. -/
def optW : FalkonOptions := ⟨false, false, 1, 2 ^ 30, false⟩

/-- The budgeted device `get_gpu_info optW invW` produces:
`(400MiB - 300MiB) * 0.95 = 99614720` bytes usable. -/
def devW : DeviceInfo := ⟨0, 400 * 2 ^ 20, 99614720⟩

/-- C8 witness: the derived budget of the concrete inventory `invW`. -/
theorem C8_witness :
    devW ∈ get_gpu_info optW invW ∧ (0 : ℚ) ≤ devW.free_memory ∧
      devW.actual_free_mem ≤ devW.free_memory :=
  ⟨by norm_num [get_gpu_info, ratMin, invW, optW, devW],
   by norm_num [devW],
   C8_usable_le_free optW invW devW (by norm_num [get_gpu_info, ratMin, invW, optW, devW])
     (by norm_num [devW])⟩

/-- C10: for a device-resident matrix `can_do_ic` compares usable memory times 0.85
with the fixed `100 * 8 = 800`-byte workspace constant, so the result does not depend
on the matrix dimension `n`. -/
theorem C10_cuda_needed_fixed (A : TensorH) (dev : DeviceInfo) (hA : A.isCuda = true) :
    (can_do_ic A dev = true ↔ (800 : ℚ) ≤ dev.actual_free_mem * (85 / 100)) ∧
      ∀ m : ℕ, can_do_ic { A with n := m } dev = can_do_ic A dev := by
  constructor
  · simp only [can_do_ic, hA, if_true, decide_eq_true_eq]
    norm_num
  · intro m
    simp [can_do_ic, hA]

/-- A small device-resident matrix. -/
def tenC : TensorH := ⟨0, 4, 8, true, false, true, 0⟩

/-- C10 witness: a concrete device-resident matrix and a 1000-byte budget. -/
theorem C10_witness :
    tenC.isCuda = true ∧
      ((can_do_ic tenC ⟨0, 1000, 1000⟩ = true ↔ (800 : ℚ) ≤ (1000 : ℚ) * (85 / 100)) ∧
        ∀ m : ℕ, can_do_ic { tenC with n := m } ⟨0, 1000, 1000⟩ = can_do_ic tenC ⟨0, 1000, 1000⟩) :=
  ⟨rfl, C10_cuda_needed_fixed tenC ⟨0, 1000, 1000⟩ rfl⟩

/-- C2: the strategy selector chooses in-core exactly when out-of-core was not forced
and the chosen device's usable memory times 0.85 covers the needed RAM — the full
matrix footprint `n * n * element_size` for a host matrix, the small fixed 800-byte
workspace for a device-resident one. -/
theorem C2_in_core_selection (A : TensorH) (opt : FalkonOptions) (gi : List DeviceInfo)
    (dev : DeviceInfo) (b : Bool)
    (hS : selectStrategy A opt gi = .ok (dev, b)) :
    b = true ↔ opt.chol_force_ooc = false ∧
      (if A.isCuda then (800 : ℚ) else ((A.n * A.n * A.dts : ℕ) : ℚ)) ≤
        dev.actual_free_mem * (85 / 100) := by
  unfold selectStrategy at hS
  cases hSD : selectDevice A gi with
  | error e =>
    rw [hSD] at hS
    exact absurd hS (by simp)
  | ok d =>
    rw [hSD] at hS
    simp only [Except.ok.injEq, Prod.mk.injEq] at hS
    obtain ⟨hd, hb⟩ := hS
    subst hd
    subst hb
    cases hc : opt.chol_force_ooc <;> cases hA : A.isCuda <;>
      simp [can_do_ic, hc, hA, decide_eq_true_eq] <;> norm_num

/-- A host-resident 10 x 10 double-precision matrix (needs 800 bytes on device). -/
def tenH : TensorH := ⟨0, 10, 8, true, false, false, 0⟩

/-- C2 witness: on `invW` the selector picks the single device and chooses in-core
for the small host matrix `tenH`. -/
theorem C2_witness :
    selectStrategy tenH optW (get_gpu_info optW invW) = .ok (devW, true) ∧
      (true = true ↔ optW.chol_force_ooc = false ∧
        (if tenH.isCuda then (800 : ℚ) else ((tenH.n * tenH.n * tenH.dts : ℕ) : ℚ)) ≤
          devW.actual_free_mem * (85 / 100)) :=
  ⟨by norm_num [selectStrategy, selectDevice, argmaxFreeMem, can_do_ic, get_gpu_info, ratMin,
      tenH, optW, invW, devW],
   C2_in_core_selection tenH optW (get_gpu_info optW invW) devW true
     (by norm_num [selectStrategy, selectDevice, argmaxFreeMem, can_do_ic, get_gpu_info, ratMin,
        tenH, optW, invW, devW])⟩

/-! ### Frame and control-flow lemmas for `gpu_cholesky` -/

/-- A trivial stand-in for the in-core kernel, used in concrete instances. -/
def icK0 : Buffer → Bool → Buffer := fun M _ => M

/-- A trivial stand-in for the out-of-core kernel, used in concrete instances. -/
def oocK0 : List ℕ → List Block → Buffer → Buffer := fun _ _ M => M

/-- The all-zero heap, used in concrete instances. -/
def h0 : Heap := fun _ _ _ => 0

theorem workTensor_addr (A : TensorH) (fresh : ℕ) :
    (workTensor A fresh false).addr = fresh := rfl

theorem selectStrategy_workTensor (A : TensorH) (fresh : ℕ) (ow : Bool)
    (opt : FalkonOptions) (gi : List DeviceInfo) :
    selectStrategy (workTensor A fresh ow) opt gi = selectStrategy A opt gi := by
  cases ow <;> rfl

theorem normUpper_workTensor (A : TensorH) (fresh : ℕ) (ow : Bool) (u : Bool) :
    normUpper (workTensor A fresh ow) u = normUpper A u := by
  cases ow <;> rfl

theorem selectStrategy_ok_ic (A : TensorH) (opt : FalkonOptions) (gi : List DeviceInfo)
    (dev : DeviceInfo) (b : Bool) (hS : selectStrategy A opt gi = .ok (dev, b)) :
    b = (can_do_ic A dev && !opt.chol_force_ooc) := by
  unfold selectStrategy at hS
  cases hSD : selectDevice A gi with
  | error e => rw [hSD] at hS; simp at hS
  | ok d =>
    rw [hSD] at hS
    simp only [Except.ok.injEq, Prod.mk.injEq] at hS
    obtain ⟨hd, hb⟩ := hS
    rw [← hb, hd]

theorem writeT_ne (h : Heap) (B : TensorH) (M : Buffer) (a : ℕ) (ha : a ≠ B.addr) :
    writeT h B M a = h a := by
  simp [writeT, ha]

theorem finishChol_heap_ne (h2 : Heap) (A2 : TensorH) (u c t : Bool) (k : Option KernelUsed)
    (a : ℕ) (ha : a ≠ A2.addr) : (finishChol h2 A2 u c t k).heap a = h2 a := by
  cases c <;> simp [finishChol, writeT, ha]

theorem finishChol_res (h2 : Heap) (A2 : TensorH) (u c t : Bool) (k : Option KernelUsed) :
    (finishChol h2 A2 u c t k).res = .ok (if t then A2.T else A2) := by
  cases c <;> simp [finishChol]

theorem finishChol_kernel (h2 : Heap) (A2 : TensorH) (u c t : Bool) (k : Option KernelUsed) :
    (finishChol h2 A2 u c t k).kernel = k := by
  cases c <;> simp [finishChol]

theorem runner_heap_ne (oocK : List ℕ → List Block → Buffer → Buffer) (h : Heap)
    (A : TensorH) (opt : FalkonOptions) (gi : List DeviceInfo) (r : RunnerOut)
    (hr : parallel_potrf_runner oocK h A opt gi = .ok r) (a : ℕ) (ha : a ≠ A.addr) :
    r.heap a = h a := by
  unfold parallel_potrf_runner at hr
  cases hmf : minFreeMem gi with
  | none => rw [hmf] at hr; simp at hr
  | some mf =>
    rw [hmf] at hr
    simp only at hr
    split at hr
    · simp at hr
    · simp only [Except.ok.injEq] at hr
      rw [← hr]
      simp [writeT, ha]

theorem norm_addr (A1 : TensorH) : (normTensor A1).addr = A1.addr := by
  by_cases hf : A1.fContig <;> simp [normTensor, hf, TensorH.T]

theorem dispatch_heap_ne (icK : Buffer → Bool → Buffer)
    (oocK : List ℕ → List Block → Buffer → Buffer) (h1 : Heap) (A1 : TensorH)
    (upper clean : Bool) (opt : FalkonOptions) (gi : List DeviceInfo) (dev : DeviceInfo)
    (ic : Bool) (a : ℕ) (ha : a ≠ A1.addr) :
    (dispatchAndFinish icK oocK h1 A1 upper clean opt gi dev ic).heap a = h1 a := by
  have ha2 : a ≠ (normTensor A1).addr := by rw [norm_addr]; exact ha
  unfold dispatchAndFinish
  split
  · rfl
  split
  · rfl
  split
  · rw [finishChol_heap_ne _ _ _ _ _ _ _ ha2]
    exact writeT_ne _ _ _ _ ha2
  · cases hr : parallel_potrf_runner oocK h1 (normTensor A1) opt gi with
    | error e => rfl
    | ok r =>
      rw [finishChol_heap_ne _ _ _ _ _ _ _ ha2]
      exact runner_heap_ne _ _ _ _ _ _ hr _ ha2

theorem dispatch_res_addr (icK : Buffer → Bool → Buffer)
    (oocK : List ℕ → List Block → Buffer → Buffer) (h1 : Heap) (A1 : TensorH)
    (upper clean : Bool) (opt : FalkonOptions) (gi : List DeviceInfo) (dev : DeviceInfo)
    (ic : Bool) (r : TensorH)
    (hr : (dispatchAndFinish icK oocK h1 A1 upper clean opt gi dev ic).res = .ok r) :
    r.addr = A1.addr := by
  have haddr : ∀ t : Bool, (if t then (normTensor A1).T else normTensor A1).addr = A1.addr := by
    intro t
    cases t <;> by_cases hf : A1.fContig <;> simp [normTensor, hf, TensorH.T]
  unfold dispatchAndFinish at hr
  split at hr
  · simp at hr
  split at hr
  · simp at hr
  split at hr
  · rw [finishChol_res] at hr
    simp only [Except.ok.injEq] at hr
    rw [← hr]
    exact haddr _
  · cases hrr : parallel_potrf_runner oocK h1 (normTensor A1) opt gi with
    | error e => rw [hrr] at hr; simp at hr
    | ok rr =>
      rw [hrr, finishChol_res] at hr
      simp only [Except.ok.injEq] at hr
      rw [← hr]
      exact haddr _

/-- C3: with `overwrite = false`, `gpu_cholesky` copies the input into the fresh
buffer before doing anything else, all mutation targets that copy, the caller's
buffer is untouched at the end of the call, and any returned tensor lives in the
fresh buffer. -/
theorem C3_no_mutation (icK : Buffer → Bool → Buffer)
    (oocK : List ℕ → List Block → Buffer → Buffer) (h : Heap) (fresh : ℕ) (A : TensorH)
    (upper clean : Bool) (opt : FalkonOptions) (inv : List DeviceInfo)
    (hne : A.addr ≠ fresh) :
    (gpu_cholesky icK oocK h fresh A upper clean false opt inv).heap A.addr = h A.addr ∧
      ∀ r, (gpu_cholesky icK oocK h fresh A upper clean false opt inv).res = .ok r →
        r.addr = fresh := by
  have hcopy : copyHeap h A fresh false A.addr = h A.addr := by
    simp [copyHeap, hne]
  have hA1 : (workTensor A fresh false).addr = fresh := rfl
  unfold gpu_cholesky
  cases hS : selectStrategy (workTensor A fresh false) opt (get_gpu_info opt inv) with
  | error e => exact ⟨hcopy, by intro r hr; simp at hr⟩
  | ok p =>
    obtain ⟨dev, ic⟩ := p
    dsimp only
    split
    · exact ⟨hcopy, by intro r hr; simp at hr⟩
    · constructor
      · rw [dispatch_heap_ne icK oocK (copyHeap h A fresh false) (workTensor A fresh false)
            upper clean opt (get_gpu_info opt inv) dev ic A.addr (by rw [hA1]; exact hne)]
        exact hcopy
      · intro r hr
        have h2 := dispatch_res_addr _ _ _ _ _ _ _ _ _ _ _ hr
        rw [h2]
        exact hA1

/-- C3 witness: a concrete call with `overwrite = false` leaves address 0 untouched
and returns a tensor at the fresh address 1. -/
theorem C3_witness :
    (0 : ℕ) ≠ 1 ∧
      ((gpu_cholesky icK0 oocK0 h0 1 tenH false false false optW invW).heap tenH.addr =
          h0 tenH.addr ∧
        ∀ r, (gpu_cholesky icK0 oocK0 h0 1 tenH false false false optW invW).res = .ok r →
          r.addr = 1) :=
  ⟨by decide, C3_no_mutation icK0 oocK0 h0 1 tenH false false optW invW (by decide)⟩

/-! ### Forced strategies and pre-dispatch errors (claims C5, C9, C4) -/

theorem workTensor_fContig (A : TensorH) (fresh : ℕ) (ow : Bool) :
    (workTensor A fresh ow).fContig = A.fContig := by
  cases ow <;> rfl

theorem workTensor_trans (A : TensorH) (fresh : ℕ) (ow : Bool) :
    (workTensor A fresh ow).trans = A.trans := by
  cases ow <;> rfl

theorem workTensor_isCuda (A : TensorH) (fresh : ℕ) (ow : Bool) :
    (workTensor A fresh ow).isCuda = A.isCuda := by
  cases ow <;> rfl

theorem normTensor_isCuda (B : TensorH) : (normTensor B).isCuda = B.isCuda := by
  by_cases h : B.fContig <;> simp [normTensor, h, TensorH.T]

/-- C5: if `chol_force_in_core` is set and the selector does not choose in-core, the
call fails with the configuration error at once — no fallback to out-of-core and no
kernel dispatch. -/
theorem C5_force_in_core_error (icK : Buffer → Bool → Buffer)
    (oocK : List ℕ → List Block → Buffer → Buffer) (h : Heap) (fresh : ℕ) (A : TensorH)
    (upper clean overwrite : Bool) (opt : FalkonOptions) (inv : List DeviceInfo)
    (dev : DeviceInfo)
    (hf : opt.chol_force_in_core = true)
    (hS : selectStrategy A opt (get_gpu_info opt inv) = .ok (dev, false)) :
    (gpu_cholesky icK oocK h fresh A upper clean overwrite opt inv).res =
        .error .forceInCore ∧
      (gpu_cholesky icK oocK h fresh A upper clean overwrite opt inv).kernel = none := by
  have hS' : selectStrategy (workTensor A fresh overwrite) opt (get_gpu_info opt inv) =
      .ok (dev, false) := by
    rw [selectStrategy_workTensor]
    exact hS
  unfold gpu_cholesky
  rw [hS']
  simp [hf]

/-- Options forcing in-core only. -/
def optIC : FalkonOptions := ⟨false, true, 1, 2 ^ 30, false⟩

/-- Options forcing both in-core and out-of-core. -/
def optFF : FalkonOptions := ⟨true, true, 1, 2 ^ 30, false⟩

/-- Options forcing out-of-core only. -/
def optOOC : FalkonOptions := ⟨true, false, 1, 2 ^ 30, false⟩

/-- A large host-resident matrix (10^6 x 10^6 doubles, far beyond `invW`'s budget). -/
def tenBig : TensorH := ⟨0, 1000000, 8, true, false, false, 0⟩

/-- C5 witness: forcing in-core on the oversized host matrix errors out. -/
theorem C5_witness :
    optIC.chol_force_in_core = true ∧
      selectStrategy tenBig optIC (get_gpu_info optIC invW) = .ok (devW, false) ∧
      ((gpu_cholesky icK0 oocK0 h0 1 tenBig false false false optIC invW).res =
          .error .forceInCore ∧
        (gpu_cholesky icK0 oocK0 h0 1 tenBig false false false optIC invW).kernel = none) :=
  ⟨rfl,
   by norm_num [selectStrategy, selectDevice, argmaxFreeMem, can_do_ic, get_gpu_info, ratMin,
      tenBig, optIC, invW, devW],
   C5_force_in_core_error icK0 oocK0 h0 1 tenBig false false false optIC invW devW rfl
     (by norm_num [selectStrategy, selectDevice, argmaxFreeMem, can_do_ic, get_gpu_info, ratMin,
        tenBig, optIC, invW, devW])⟩

/-- C9 (amended): when both force flags are set and the device-selection step
succeeds, forcing out-of-core deselects in-core and the force-in-core check errors
out, with no kernel dispatched. -/
theorem C9_both_forces (icK : Buffer → Bool → Buffer)
    (oocK : List ℕ → List Block → Buffer → Buffer) (h : Heap) (fresh : ℕ) (A : TensorH)
    (upper clean overwrite : Bool) (opt : FalkonOptions) (inv : List DeviceInfo)
    (sd : DeviceInfo × Bool)
    (h1 : opt.chol_force_in_core = true) (h2 : opt.chol_force_ooc = true)
    (hS : selectStrategy A opt (get_gpu_info opt inv) = .ok sd) :
    (gpu_cholesky icK oocK h fresh A upper clean overwrite opt inv).res =
        .error .forceInCore ∧
      (gpu_cholesky icK oocK h fresh A upper clean overwrite opt inv).kernel = none := by
  obtain ⟨dev, b⟩ := sd
  have hb := selectStrategy_ok_ic _ _ _ _ _ hS
  rw [h2] at hb
  simp at hb
  subst hb
  have hS' : selectStrategy (workTensor A fresh overwrite) opt (get_gpu_info opt inv) =
      .ok (dev, false) := by
    rw [selectStrategy_workTensor]
    exact hS
  unfold gpu_cholesky
  rw [hS']
  simp [h1]

/-- C9 witness: both force flags on a recognized device-resident matrix yield the
force-in-core error. -/
theorem C9_witness :
    optFF.chol_force_in_core = true ∧ optFF.chol_force_ooc = true ∧
      selectStrategy tenC optFF (get_gpu_info optFF invW) = .ok (devW, false) ∧
      ((gpu_cholesky icK0 oocK0 h0 1 tenC false false false optFF invW).res =
          .error .forceInCore ∧
        (gpu_cholesky icK0 oocK0 h0 1 tenC false false false optFF invW).kernel = none) :=
  ⟨rfl, rfl,
   by norm_num [selectStrategy, selectDevice, can_do_ic, get_gpu_info, ratMin,
      tenC, optFF, invW, devW, List.find?],
   C9_both_forces icK0 oocK0 h0 1 tenC false false false optFF invW (devW, false) rfl rfl
     (by norm_num [selectStrategy, selectDevice, can_do_ic, get_gpu_info, ratMin,
        tenC, optFF, invW, devW, List.find?])⟩

/-- C9 counterexample: with both force flags set but a CUDA matrix whose device is
not in the (empty) inventory, the call fails with the device-recognition error, not
the force-in-core error — so the claim's "regardless of residency or available device
memory" is too strong. -/
theorem C9_counterexample :
    (gpu_cholesky icK0 oocK0 h0 1 tenC false false true optFF []).res =
        .error .deviceNotFound ∧
      (gpu_cholesky icK0 oocK0 h0 1 tenC false false true optFF []).res ≠
        .error .forceInCore := by
  have h1 : (gpu_cholesky icK0 oocK0 h0 1 tenC false false true optFF []).res =
      .error .deviceNotFound := rfl
  refine ⟨h1, ?_⟩
  rw [h1]
  simp

/-- C4: when out-of-core is selected, the call fails before any kernel dispatch
whenever the post-normalization triangle is upper or the matrix is device-resident;
when the device-residency error itself fires (lower triangle, force-in-core unset)
with `chol_force_ooc` set, the error notes that unsetting the flag would allow
in-core. -/
theorem C4_ooc_errors (icK : Buffer → Bool → Buffer)
    (oocK : List ℕ → List Block → Buffer → Buffer) (h : Heap) (fresh : ℕ) (A : TensorH)
    (upper clean overwrite : Bool) (opt : FalkonOptions) (inv : List DeviceInfo)
    (dev : DeviceInfo)
    (hS : selectStrategy A opt (get_gpu_info opt inv) = .ok (dev, false)) :
    ((normUpper A upper = true ∨ A.isCuda = true) →
        (∃ e, (gpu_cholesky icK oocK h fresh A upper clean overwrite opt inv).res =
            .error e) ∧
          (gpu_cholesky icK oocK h fresh A upper clean overwrite opt inv).kernel = none) ∧
      (opt.chol_force_in_core = false → normUpper A upper = false → A.isCuda = true →
        (gpu_cholesky icK oocK h fresh A upper clean overwrite opt inv).res =
            .error (.cudaOOC opt.chol_force_ooc) ∧
          (gpu_cholesky icK oocK h fresh A upper clean overwrite opt inv).kernel = none) := by
  have hS' : selectStrategy (workTensor A fresh overwrite) opt (get_gpu_info opt inv) =
      .ok (dev, false) := by
    rw [selectStrategy_workTensor]
    exact hS
  unfold gpu_cholesky
  rw [hS']
  dsimp only
  constructor
  · intro hcase
    by_cases hfic : opt.chol_force_in_core
    · refine ⟨⟨.forceInCore, ?_⟩, ?_⟩ <;> simp [hfic]
    · simp only [Bool.not_eq_true] at hfic
      simp only [hfic, Bool.false_and, Bool.not_false, Bool.and_true, if_false]
      rcases hcase with hup | hcuda
      · refine ⟨⟨.upperNotSupported, ?_⟩, ?_⟩ <;>
          simp [dispatchAndFinish, normUpper_workTensor, hup]
      · by_cases hup : normUpper A upper
        · refine ⟨⟨.upperNotSupported, ?_⟩, ?_⟩ <;>
            simp [dispatchAndFinish, normUpper_workTensor, hup]
        · simp only [Bool.not_eq_true] at hup
          refine ⟨⟨.cudaOOC opt.chol_force_ooc, ?_⟩, ?_⟩ <;>
            simp [dispatchAndFinish, normUpper_workTensor, hup, normTensor_isCuda,
              workTensor_isCuda, hcuda]
  · intro hfic hup hcuda
    simp only [hfic, Bool.false_and, Bool.not_false, Bool.and_true, if_false]
    constructor <;>
      simp [dispatchAndFinish, normUpper_workTensor, hup, normTensor_isCuda,
        workTensor_isCuda, hcuda]

/-- C4 witness: on the oversized host matrix out-of-core is selected, and both
implications of `C4_ooc_errors` hold at this concrete call. -/
theorem C4_witness :
    selectStrategy tenBig optW (get_gpu_info optW invW) = .ok (devW, false) ∧
      (((normUpper tenBig true = true ∨ tenBig.isCuda = true) →
          (∃ e, (gpu_cholesky icK0 oocK0 h0 1 tenBig true false false optW invW).res =
              .error e) ∧
            (gpu_cholesky icK0 oocK0 h0 1 tenBig true false false optW invW).kernel = none) ∧
        (optW.chol_force_in_core = false → normUpper tenBig true = false →
          tenBig.isCuda = true →
          (gpu_cholesky icK0 oocK0 h0 1 tenBig true false false optW invW).res =
              .error (.cudaOOC optW.chol_force_ooc) ∧
            (gpu_cholesky icK0 oocK0 h0 1 tenBig true false false optW invW).kernel = none)) :=
  ⟨by norm_num [selectStrategy, selectDevice, argmaxFreeMem, can_do_ic, get_gpu_info, ratMin,
      tenBig, optW, invW, devW],
   C4_ooc_errors icK0 oocK0 h0 1 tenBig true false false optW invW devW
     (by norm_num [selectStrategy, selectDevice, argmaxFreeMem, can_do_ic, get_gpu_info, ratMin,
        tenBig, optW, invW, devW])⟩

/-- C4 counterexample: a device-resident matrix with `chol_force_ooc` set but an
upper-triangle request fails with the upper-triangle error, whose message does not
mention the force flag — the claim's message clause does not hold in every
device-resident forced-out-of-core case. -/
theorem C4_counterexample :
    (gpu_cholesky icK0 oocK0 h0 1 tenC true false true optOOC invW).res =
        .error .upperNotSupported ∧
      (gpu_cholesky icK0 oocK0 h0 1 tenC true false true optOOC invW).res ≠
        .error (.cudaOOC true) := by
  have hS : selectStrategy (workTensor tenC 1 true) optOOC (get_gpu_info optOOC invW) =
      .ok (devW, false) := by
    rw [selectStrategy_workTensor]
    norm_num [selectStrategy, selectDevice, can_do_ic, get_gpu_info, ratMin, tenC, optOOC,
      invW, devW, List.find?]
  have h1 : (gpu_cholesky icK0 oocK0 h0 1 tenC true false true optOOC invW).res =
      .error .upperNotSupported := by
    unfold gpu_cholesky
    rw [hS]
    simp [dispatchAndFinish, normUpper, workTensor, tenC, optOOC]
  refine ⟨h1, ?_⟩
  rw [h1]
  simp

/-! ### Transpose handling and cleaning (claim C7) -/

theorem finishChol_res_trans (h2 : Heap) (A2 : TensorH) (u c : Bool) (k : Option KernelUsed)
    (hA2 : A2.trans = true) :
    ∀ r, (finishChol h2 A2 u c true k).res = .ok r → r.trans = false := by
  intro r hr
  rw [finishChol_res] at hr
  simp only [if_true, Except.ok.injEq] at hr
  rw [← hr]
  simp [TensorH.T, hA2]

theorem finishChol_clean_zero (h2 : Heap) (A2 : TensorH) (upper : Bool)
    (k : Option KernelUsed) (hA2 : A2.trans = true) (r : TensorH)
    (hr : (finishChol h2 A2 (!upper) true true k).res = .ok r) (i j : ℕ)
    (hcond : (upper = true ∧ j < i) ∨ (upper = false ∧ i < j)) :
    readT (finishChol h2 A2 (!upper) true true k).heap r i j = 0 := by
  rw [finishChol_res] at hr
  simp only [if_true, Except.ok.injEq] at hr
  rw [← hr]
  simp only [finishChol, if_true]
  simp only [readT, writeT, TensorH.T, hA2, Bool.not_true, Bool.not_not, if_false, if_true,
    if_pos rfl, zero_triang]
  rcases hcond with ⟨hu, hij⟩ | ⟨hu, hij⟩ <;> subst hu <;> simp [hij]

theorem dispatch_C7 (icK : Buffer → Bool → Buffer)
    (oocK : List ℕ → List Block → Buffer → Buffer) (h1 : Heap) (A1 : TensorH)
    (upper clean : Bool) (opt : FalkonOptions) (gi : List DeviceInfo) (dev : DeviceInfo)
    (ic : Bool) (hF1 : A1.fContig = false) (hT1 : A1.trans = false) :
    (∀ u d2, (dispatchAndFinish icK oocK h1 A1 upper clean opt gi dev ic).kernel =
        some (.ic u d2) → u = !upper) ∧
      (∀ ds bs, (dispatchAndFinish icK oocK h1 A1 upper clean opt gi dev ic).kernel =
          some (.ooc ds bs) → upper = true) ∧
      (∀ r, (dispatchAndFinish icK oocK h1 A1 upper clean opt gi dev ic).res = .ok r →
        r.trans = false) ∧
      (clean = true →
        ∀ r, (dispatchAndFinish icK oocK h1 A1 upper clean opt gi dev ic).res = .ok r →
          ∀ i j, ((upper = true ∧ j < i) ∨ (upper = false ∧ i < j)) →
            readT (dispatchAndFinish icK oocK h1 A1 upper clean opt gi dev ic).heap r i j =
              0) := by
  have hN : normTensor A1 = A1.T := by simp [normTensor, hF1]
  have hU : normUpper A1 upper = !upper := by simp [normUpper, hF1]
  have htr : (A1.T).trans = true := by simp [TensorH.T, hT1]
  have htrans : (!A1.fContig) = true := by simp [hF1]
  unfold dispatchAndFinish
  rw [hN, hU, htrans]
  split
  · exact ⟨by simp, by simp, by simp, by simp⟩
  next hguard1 =>
    split
    · exact ⟨by simp, by simp, by simp, by simp⟩
    next hguard2 =>
      split
      next hic =>
        refine ⟨?_, ?_, ?_, ?_⟩
        · intro u d2 hk
          rw [finishChol_kernel] at hk
          simp only [Option.some.injEq, KernelUsed.ic.injEq] at hk
          exact hk.1.symm
        · intro ds bs hk
          rw [finishChol_kernel] at hk
          simp at hk
        · intro r hr
          exact finishChol_res_trans _ _ _ _ _ htr r hr
        · intro hc r hr i j hcond
          subst hc
          exact finishChol_clean_zero _ _ _ _ htr r hr i j hcond
      next hic =>
        cases hrr : parallel_potrf_runner oocK h1 (A1.T) opt gi with
        | error e => exact ⟨by simp, by simp, by simp, by simp⟩
        | ok r2 =>
          refine ⟨?_, ?_, ?_, ?_⟩
          · intro u d2 hk
            rw [finishChol_kernel] at hk
            simp at hk
          · intro ds bs hk
            have hicf : ic = false := by
              revert hic
              cases ic <;> simp
            cases hup : upper with
            | true => rfl
            | false =>
              exfalso
              apply hguard1
              rw [hicf, hup]
              rfl
          · intro r hr
            exact finishChol_res_trans _ _ _ _ _ htr r hr
          · intro hc r hr i j hcond
            subst hc
            exact finishChol_clean_zero _ _ _ _ htr r hr i j hcond

/-- C7: for a non-F-contiguous input, `gpu_cholesky` works on the transposed view
with the flipped triangle flag (any ic dispatch receives `!upper`, any ooc dispatch
implies the original request was upper), the returned tensor is transposed back to
the caller's orientation, and cleaning zeroes the complement of the
post-normalization triangle, observed by the caller as zeros strictly beyond the
requested triangle. -/
theorem C7_transpose_handling (icK : Buffer → Bool → Buffer)
    (oocK : List ℕ → List Block → Buffer → Buffer) (h : Heap) (fresh : ℕ) (A : TensorH)
    (upper clean overwrite : Bool) (opt : FalkonOptions) (inv : List DeviceInfo)
    (hF : A.fContig = false) (hT : A.trans = false) :
    (∀ u d2, (gpu_cholesky icK oocK h fresh A upper clean overwrite opt inv).kernel =
        some (.ic u d2) → u = !upper) ∧
      (∀ ds bs, (gpu_cholesky icK oocK h fresh A upper clean overwrite opt inv).kernel =
          some (.ooc ds bs) → upper = true) ∧
      (∀ r, (gpu_cholesky icK oocK h fresh A upper clean overwrite opt inv).res = .ok r →
        r.trans = false) ∧
      (clean = true →
        ∀ r, (gpu_cholesky icK oocK h fresh A upper clean overwrite opt inv).res = .ok r →
          ∀ i j, ((upper = true ∧ j < i) ∨ (upper = false ∧ i < j)) →
            readT (gpu_cholesky icK oocK h fresh A upper clean overwrite opt inv).heap r i j =
              0) := by
  have hF1 : (workTensor A fresh overwrite).fContig = false := by
    rw [workTensor_fContig]; exact hF
  have hT1 : (workTensor A fresh overwrite).trans = false := by
    rw [workTensor_trans]; exact hT
  unfold gpu_cholesky
  cases hS : selectStrategy (workTensor A fresh overwrite) opt (get_gpu_info opt inv) with
  | error e => exact ⟨by simp, by simp, by simp, by simp⟩
  | ok p =>
    obtain ⟨dev, ic⟩ := p
    dsimp only
    split
    · exact ⟨by simp, by simp, by simp, by simp⟩
    · exact dispatch_C7 icK oocK _ _ upper clean opt _ dev ic hF1 hT1

/-- A C-contiguous (row-major) host matrix. -/
def tenR : TensorH := ⟨0, 8, 8, false, false, false, 0⟩

/-- C7 witness: the transpose-handling properties at a concrete row-major input. -/
theorem C7_witness :
    tenR.fContig = false ∧ tenR.trans = false ∧
      ((∀ u d2, (gpu_cholesky icK0 oocK0 h0 1 tenR true true false optW invW).kernel =
          some (.ic u d2) → u = !true) ∧
        (∀ ds bs, (gpu_cholesky icK0 oocK0 h0 1 tenR true true false optW invW).kernel =
            some (.ooc ds bs) → true = true) ∧
        (∀ r, (gpu_cholesky icK0 oocK0 h0 1 tenR true true false optW invW).res = .ok r →
          r.trans = false) ∧
        (true = true →
          ∀ r, (gpu_cholesky icK0 oocK0 h0 1 tenR true true false optW invW).res = .ok r →
            ∀ i j, ((true = true ∧ j < i) ∨ (true = false ∧ i < j)) →
              readT (gpu_cholesky icK0 oocK0 h0 1 tenR true true false optW invW).heap r i j =
                0)) :=
  ⟨rfl, rfl, C7_transpose_handling icK0 oocK0 h0 1 tenR true true false optW invW rfl rfl⟩

end Falkon
